import Mathlib

/-!
Shallow embedding of the kairos terminal world-clock engine (clock.go,
canonical variant): grid layout geometry, the timezone swap operation,
derived indicators, text centering, and the day-progress bar.

Machine integers are modelled as Nat/Int.  Go's truncating integer
division coincides with Nat division on the nonnegative quantities that
occur here; screen coordinates are Int because the footer view starts at
x = -1.  Go strings are modelled as Lean strings over the same character
data (all strings involved are such that Go byte length and rune count
agree where the code calls len).  The display-width function of the
external go-runewidth library is modelled by its documented contract:
control characters have width 0, emoji have width 2, other characters
width 1.
-/

namespace Kairos

/-- A Go time.Time observed through the accessors the program uses: clock
fields plus calendar fields for date formatting.  weekday follows Go's
time.Weekday numbering, 0 = Sunday .. 6 = Saturday. -/
structure GoTime where
  year : Nat
  month : Nat
  day : Nat
  weekday : Nat
  hour : Nat
  minute : Nat
  second : Nat
deriving DecidableEq, Repr

/-- A gocui view rectangle in character-cell coordinates, both corners
inclusive, exactly as passed to g.SetView(name, x0, y0, x1, y1). -/
structure Rect where
  x0 : Int
  y0 : Int
  x1 : Int
  y1 : Int
deriving DecidableEq, Repr

/-- Membership of a character cell in a rectangle (corners inclusive). -/
def Rect.Mem (r : Rect) (x y : Int) : Prop :=
  r.x0 ≤ x ∧ x ≤ r.x1 ∧ r.y0 ≤ y ∧ y ≤ r.y1

/-- Area of a rectangle, zero when it is degenerate. -/
def Rect.area (r : Rect) : Int :=
  max 0 (r.x1 - r.x0 + 1) * max 0 (r.y1 - r.y0 + 1)

/-- Two rectangles share no character cell. -/
def RectDisjoint (r s : Rect) : Prop :=
  ∀ x y : Int, r.Mem x y → s.Mem x y → False

/-- layout: gridMaxY := maxY - 3 (the canonical layout reserves the bottom
three lines for the help footer). -/
def gridMaxY (H : Nat) : Nat := H - 3

/-- layout: rowHeight := gridMaxY / 3. -/
def rowHeight (H : Nat) : Nat := gridMaxY H / 3

/-- layout: colWidth := maxX / itemsPerRow with itemsPerRow = 3. -/
def colWidth (W : Nat) : Nat := W / 3

/-- layout: the top (focus) view, g.SetView("top", 0, 0, maxX-1, rowHeight-1). -/
def focusRect (W H : Nat) : Rect :=
  ⟨0, 0, (W : Int) - 1, (rowHeight H : Int) - 1⟩

/-- layout: the view for the i-th secondary timezone (the loop index i
runs from 1): rowNum := (i-1)/3, colNum := (i-1)%3,
x0 := colNum*colWidth, y0 := (rowNum+1)*rowHeight,
x1 := x0+colWidth-1 overridden to maxX-1 in the last column,
y1 := y0+rowHeight-1 overridden to gridMaxY-1 in the last row. -/
def secondaryRect (W H i : Nat) : Rect :=
  let rowNum := (i - 1) / 3
  let colNum := (i - 1) % 3
  let x0 : Int := (colNum * colWidth W : Nat)
  let y0 : Int := ((rowNum + 1) * rowHeight H : Nat)
  let x1 : Int := if colNum = 2 then (W : Int) - 1 else x0 + (colWidth W : Int) - 1
  let y1 : Int := if rowNum = 1 then (gridMaxY H : Int) - 1 else y0 + (rowHeight H : Int) - 1
  ⟨x0, y0, x1, y1⟩

/-- layout: the secondary views produced by the loop
for i := 1; i < len(timezones); i++, with K = len(timezones) - 1. -/
def secondaryRects (W H K : Nat) : List Rect :=
  (List.range K).map (fun j => secondaryRect W H (j + 1))

/-- layout: the help footer view, g.SetView("help", -1, maxY-3, maxX, maxY-1). -/
def footerRect (W H : Nat) : Rect :=
  ⟨-1, (H : Int) - 3, (W : Int), (H : Int) - 1⟩

/-- All rectangles one layout pass creates: focus, the K secondary cells,
and the footer. -/
def layoutRects (W H K : Nat) : List Rect :=
  focusRect W H :: secondaryRects W H K ++ [footerRect W H]

/-- Total area of the rectangles of one layout pass. -/
def layoutAreaSum (W H K : Nat) : Int :=
  (layoutRects W H K |>.map Rect.area).sum

/-- SwapTimezones: if idxB < len(timezones), exchange slots 0 and idxB by
Go parallel assignment (both old values are read before either write);
otherwise do nothing and report no error. -/
def SwapTimezones (tzs : List α) (idxB : Nat) : List α :=
  if h : idxB < tzs.length then
    (tzs.set 0 (tzs.get ⟨idxB, h⟩)).set idxB
      (tzs.get ⟨0, Nat.lt_of_le_of_lt (Nat.zero_le idxB) h⟩)
  else tzs

/-- getBusinessHoursIndicator: open circle when the weekday is Monday(1)
through Friday(5) and the hour is at least 9 and below 17, else the
closed indicator. -/
def getBusinessHoursIndicator (now : GoTime) : String :=
  if 1 ≤ now.weekday ∧ now.weekday ≤ 5 ∧ 9 ≤ now.hour ∧ now.hour < 17 then "🟢"
  else "⚫"

/-- Zero-padded two-digit decimal used by Go layouts 03, 04, 05. -/
def pad2 (n : Nat) : String :=
  if n < 10 then "0" ++ toString n else toString n

/-- Twelve-hour clock value of an hour, Go layout 03: hours 0 and 12
print as 12. -/
def hour12 (h : Nat) : Nat :=
  if h % 12 = 0 then 12 else h % 12

/-- Go layout PM: AM for hours 0..11, PM for hours 12..23. -/
def ampm (h : Nat) : String :=
  if h < 12 then "AM" else "PM"

/-- now.Format applied to layout 03:04 PM. -/
def formatTimeHM (t : GoTime) : String :=
  pad2 (hour12 t.hour) ++ ":" ++ pad2 t.minute ++ " " ++ ampm t.hour

/-- now.Format applied to layout 03 04 PM (the blink variant: the colon
separator replaced with a space). -/
def formatTimeHMBlink (t : GoTime) : String :=
  pad2 (hour12 t.hour) ++ " " ++ pad2 t.minute ++ " " ++ ampm t.hour

/-- UpdateViewTime: the format is 03:04 PM, replaced by 03 04 PM when the
current second is odd; this is the time string handed to PrintTimeASCII
in art mode. -/
def artTimeString (t : GoTime) : String :=
  if t.second % 2 ≠ 0 then formatTimeHMBlink t else formatTimeHM t

/-- now.Format applied to layout 03:04:05 PM (plain-text mode). -/
def formatTimeHMS (t : GoTime) : String :=
  pad2 (hour12 t.hour) ++ ":" ++ pad2 t.minute ++ ":" ++ pad2 t.second
    ++ " " ++ ampm t.hour

/-- Go layout Mon: abbreviated weekday name, weekday 0 = Sunday. -/
def weekdayShortName : Nat → String
  | 0 => "Sun"
  | 1 => "Mon"
  | 2 => "Tue"
  | 3 => "Wed"
  | 4 => "Thu"
  | 5 => "Fri"
  | 6 => "Sat"
  | _ => ""

/-- Go layout Monday: full weekday name, weekday 0 = Sunday. -/
def weekdayFullName : Nat → String
  | 0 => "Sunday"
  | 1 => "Monday"
  | 2 => "Tuesday"
  | 3 => "Wednesday"
  | 4 => "Thursday"
  | 5 => "Friday"
  | 6 => "Saturday"
  | _ => ""

/-- Go layout Jan: abbreviated month name, months numbered from 1. -/
def monthShortName : Nat → String
  | 1 => "Jan"
  | 2 => "Feb"
  | 3 => "Mar"
  | 4 => "Apr"
  | 5 => "May"
  | 6 => "Jun"
  | 7 => "Jul"
  | 8 => "Aug"
  | 9 => "Sep"
  | 10 => "Oct"
  | 11 => "Nov"
  | 12 => "Dec"
  | _ => ""

/-- Go layout January: full month name, months numbered from 1. -/
def monthFullName : Nat → String
  | 1 => "January"
  | 2 => "February"
  | 3 => "March"
  | 4 => "April"
  | 5 => "May"
  | 6 => "June"
  | 7 => "July"
  | 8 => "August"
  | 9 => "September"
  | 10 => "October"
  | 11 => "November"
  | 12 => "December"
  | _ => ""

/-- now.Format applied to layout Mon, Jan 2 (the short date of plain-text
mode). -/
def formatDateShort (t : GoTime) : String :=
  weekdayShortName t.weekday ++ ", " ++ monthShortName t.month ++ " "
    ++ toString t.day

/-- now.Format applied to layout Monday, January 2, 2006. -/
def formatDateFull (t : GoTime) : String :=
  weekdayFullName t.weekday ++ ", " ++ monthFullName t.month ++ " "
    ++ toString t.day ++ ", " ++ toString t.year

/-- UpdateViewTime: the full date wrapped in the bold escape markers. -/
def boldDateString (t : GoTime) : String :=
  "\x1b[1m" ++ formatDateFull t ++ "\x1b[0m"

/-- getDayProgressBar: secondsElapsed := hour*3600 + minute*60 + second. -/
def secondsElapsedN (t : GoTime) : Nat :=
  t.hour * 3600 + t.minute * 60 + t.second

/-- getDayProgressBar: percent := secondsElapsed / 86400, modelled in
exact rational arithmetic (both operands are exactly representable
float64 values and the quotient is used only through comparisons and one
truncation, where the float computation agrees with the exact one on the
values reachable here). -/
def dayFraction (t : GoTime) : ℚ :=
  (secondsElapsedN t : ℚ) / 86400

/-- getDayProgressBar: remainingSecs := int(86400.0 - secondsElapsed),
exact for any in-range instant. -/
def remainingSecs (t : GoTime) : Nat :=
  86400 - secondsElapsedN t

/-- getDayProgressBar: timeRemaining := Sprintf of remainingSecs/3600
hours and (remainingSecs mod 3600)/60 minutes; note the leading space in
the Go format string. -/
def timeRemainingText (t : GoTime) : String :=
  " " ++ toString (remainingSecs t / 3600) ++ "h "
    ++ toString (remainingSecs t % 3600 / 60) ++ "m left"

/-- getDayProgressBar: barWidth := width - 2 - len(timeRemaining),
clamped below at 0. -/
def barWidth (t : GoTime) (width : Int) : Int :=
  let bw : Int := width - 2 - (timeRemainingText t).length
  if bw < 0 then 0 else bw

/-- getDayProgressBar: fillWidth := int(float64(barWidth) * percent);
the truncation toward zero of a nonnegative value is the floor. -/
def fillWidth (t : GoTime) (width : Int) : Int :=
  Int.floor ((barWidth t width : ℚ) * dayFraction t)

/-- getDayProgressBar: green by default, yellow for hours 17..20, red for
hours 21..23 and 0..4 (the later ifs win, as in the source). -/
def progressColor (t : GoTime) : String :=
  if 21 ≤ t.hour ∨ t.hour < 5 then "\x1b[31m"
  else if 17 ≤ t.hour ∧ t.hour < 21 then "\x1b[33m"
  else "\x1b[32m"

/-- getDayProgressBar: the track between the brackets, fillWidth solid
blocks then barWidth - fillWidth spaces. -/
def progressTrack (t : GoTime) (width : Int) : String :=
  String.mk (List.replicate (fillWidth t width).toNat '█')
    ++ String.mk (List.replicate (barWidth t width - fillWidth t width).toNat ' ')

/-- getDayProgressBar: color ++ bracketed track ++ timeRemaining ++ reset. -/
def getDayProgressBar (t : GoTime) (width : Int) : String :=
  progressColor t ++ "[" ++ progressTrack t width ++ "]"
    ++ timeRemainingText t ++ "\x1b[0m"

/-- C2: for a timezone ordering of length L and swap target k, if
1 ≤ k < L the swap exchanges exactly the slots at indices 0 and k and
leaves the length and every other slot identical; if k ≥ L the swap
leaves the whole ordering unchanged (and, being a total function, it
never raises an error). -/
theorem swapTimezones_spec :
    (∀ (α : Type) (tzs : List α) (k : Nat), 1 ≤ k → k < tzs.length →
      (SwapTimezones tzs k).length = tzs.length ∧
      (SwapTimezones tzs k)[0]? = tzs[k]? ∧
      (SwapTimezones tzs k)[k]? = tzs[0]? ∧
      ∀ j : Nat, j ≠ 0 → j ≠ k → (SwapTimezones tzs k)[j]? = tzs[j]?) ∧
    (∀ (α : Type) (tzs : List α) (k : Nat), tzs.length ≤ k →
      SwapTimezones tzs k = tzs) := by
  constructor
  · intro α tzs k h1 h2
    have h0 : 0 < tzs.length := Nat.lt_of_le_of_lt (Nat.zero_le k) h2
    refine ⟨?_, ?_, ?_, ?_⟩
    · simp [SwapTimezones, h2]
    · rw [SwapTimezones, dif_pos h2,
        List.getElem?_set_ne (show k ≠ 0 by omega),
        List.getElem?_set_eq_of_lt _ h0, List.getElem?_eq_getElem h2]
      rfl
    · rw [SwapTimezones, dif_pos h2,
        List.getElem?_set_eq_of_lt _ (by simpa using h2),
        List.getElem?_eq_getElem h0]
      rfl
    · intro j hj0 hjk
      rw [SwapTimezones, dif_pos h2,
        List.getElem?_set_ne (Ne.symm hjk),
        List.getElem?_set_ne (by omega)]
  · intro α tzs k hk
    rw [SwapTimezones, dif_neg (by omega)]

/-- Witness for C2 at the ordering of three slots and targets 2 (valid)
and 5 (out of range). -/
theorem swapTimezones_spec_witness :
    ((SwapTimezones ([10, 20, 30] : List Nat) 2).length =
        ([10, 20, 30] : List Nat).length ∧
      (SwapTimezones ([10, 20, 30] : List Nat) 2)[0]? =
        ([10, 20, 30] : List Nat)[2]? ∧
      (SwapTimezones ([10, 20, 30] : List Nat) 2)[2]? =
        ([10, 20, 30] : List Nat)[0]? ∧
      ∀ j : Nat, j ≠ 0 → j ≠ 2 →
        (SwapTimezones ([10, 20, 30] : List Nat) 2)[j]? =
          ([10, 20, 30] : List Nat)[j]?) ∧
    SwapTimezones ([10, 20, 30] : List Nat) 5 = [10, 20, 30] :=
  ⟨swapTimezones_spec.1 Nat [10, 20, 30] 2 (by decide) (by decide),
   swapTimezones_spec.2 Nat [10, 20, 30] 5 (by decide)⟩

/-- C3: the business-hours function returns the open indicator exactly
when the weekday is Monday(1) through Friday(5) and the hour lies in
[9, 17); in particular it returns the closed indicator at hour 17 and on
Saturday and Sunday at every hour. -/
theorem businessHours_spec (t : GoTime) :
    (getBusinessHoursIndicator t = "🟢" ↔
      1 ≤ t.weekday ∧ t.weekday ≤ 5 ∧ 9 ≤ t.hour ∧ t.hour < 17) ∧
    (t.hour = 17 → getBusinessHoursIndicator t = "⚫") ∧
    ((t.weekday = 0 ∨ t.weekday = 6) → getBusinessHoursIndicator t = "⚫") := by
  unfold getBusinessHoursIndicator
  by_cases h : 1 ≤ t.weekday ∧ t.weekday ≤ 5 ∧ 9 ≤ t.hour ∧ t.hour < 17
  · rw [if_pos h]
    exact ⟨⟨fun _ => h, fun _ => rfl⟩,
      fun h17 => absurd h (by omega),
      fun hwe => absurd h (by omega)⟩
  · rw [if_neg h]
    exact ⟨⟨fun heq => absurd heq (by decide), fun hc => absurd hc h⟩,
      fun _ => rfl, fun _ => rfl⟩

/-- Witness for C3 at a Monday 10:30 (open), a Wednesday at 17:00 sharp
(closed), and a Saturday at 10:00 (closed). -/
theorem businessHours_spec_witness :
    getBusinessHoursIndicator ⟨2026, 10, 5, 1, 10, 30, 0⟩ = "🟢" ∧
    getBusinessHoursIndicator ⟨2026, 10, 7, 3, 17, 0, 0⟩ = "⚫" ∧
    getBusinessHoursIndicator ⟨2026, 10, 10, 6, 10, 0, 0⟩ = "⚫" :=
  ⟨(businessHours_spec ⟨2026, 10, 5, 1, 10, 30, 0⟩).1.mpr (by decide),
   (businessHours_spec ⟨2026, 10, 7, 3, 17, 0, 0⟩).2.1 (by decide),
   (businessHours_spec ⟨2026, 10, 10, 6, 10, 0, 0⟩).2.2 (by decide)⟩

/-- C5 counterexample: at local midnight the remaining-time string the
code builds is " 24h 0m left" — the Go format string starts with a
space — so it is not the claimed "24h 0m left". -/
theorem dayProgress_counterexample :
    timeRemainingText ⟨2026, 1, 1, 4, 0, 0, 0⟩ ≠ "24h 0m left" := by decide

/-- C5 amended: at 00:00:00 the elapsed fraction is 0 and the
remaining-time text is " 24h 0m left"; at 12:00:00 the fraction is
exactly one half; at 23:59:59 the remaining-time text is " 0h 0m left";
in general the text consists of a leading space and hour and minute
counts obtained from 86400 minus the seconds elapsed since midnight,
truncated to whole minutes. -/
theorem dayProgress_spec :
    dayFraction ⟨2026, 1, 1, 4, 0, 0, 0⟩ = 0 ∧
    timeRemainingText ⟨2026, 1, 1, 4, 0, 0, 0⟩ = " 24h 0m left" ∧
    dayFraction ⟨2026, 1, 1, 4, 12, 0, 0⟩ = 1 / 2 ∧
    timeRemainingText ⟨2026, 1, 1, 4, 23, 59, 59⟩ = " 0h 0m left" ∧
    ∀ t : GoTime, t.hour < 24 → t.minute < 60 → t.second < 60 →
      ∃ hrs mins : Nat,
        timeRemainingText t =
          " " ++ toString hrs ++ "h " ++ toString mins ++ "m left" ∧
        mins < 60 ∧
        hrs * 3600 + mins * 60 ≤ 86400 - secondsElapsedN t ∧
        86400 - secondsElapsedN t < hrs * 3600 + mins * 60 + 60 := by
  refine ⟨by norm_num [dayFraction, secondsElapsedN], by decide,
    by norm_num [dayFraction, secondsElapsedN], by decide, ?_⟩
  intro t hh hm hs
  refine ⟨remainingSecs t / 3600, remainingSecs t % 3600 / 60, rfl, ?_, ?_, ?_⟩
  · omega
  · unfold remainingSecs; omega
  · unfold remainingSecs; omega

/-- Witness for C5 at 06:30:15: the remaining-time text is a leading
space plus whole-minute truncation of the seconds left in the day. -/
theorem dayProgress_spec_witness :
    ∃ hrs mins : Nat,
      timeRemainingText ⟨2026, 1, 1, 4, 6, 30, 15⟩ =
        " " ++ toString hrs ++ "h " ++ toString mins ++ "m left" ∧
      mins < 60 ∧
      hrs * 3600 + mins * 60 ≤ 86400 - secondsElapsedN ⟨2026, 1, 1, 4, 6, 30, 15⟩ ∧
      86400 - secondsElapsedN ⟨2026, 1, 1, 4, 6, 30, 15⟩ <
        hrs * 3600 + mins * 60 + 60 :=
  dayProgress_spec.2.2.2.2 ⟨2026, 1, 1, 4, 6, 30, 15⟩ (by decide) (by decide)
    (by decide)

/-- C9: for every in-range instant and every width, the clamped bar
width is nonnegative, the fill width lies between 0 and the bar width
(the elapsed fraction being below 1), so no repeat count is ever
negative, and the track between the brackets holds exactly barWidth
characters. -/
theorem progressBar_safety (t : GoTime) (width : Int)
    (hh : t.hour < 24) (hm : t.minute < 60) (hs : t.second < 60) :
    0 ≤ barWidth t width ∧ 0 ≤ fillWidth t width ∧
    fillWidth t width ≤ barWidth t width ∧
    (progressTrack t width).length = (barWidth t width).toNat := by
  have he : secondsElapsedN t ≤ 86399 := by unfold secondsElapsedN; omega
  have hbw : 0 ≤ barWidth t width := by
    simp only [barWidth]
    split <;> omega
  have hp0 : 0 ≤ dayFraction t := by
    unfold dayFraction; positivity
  have hp1 : dayFraction t < 1 := by
    unfold dayFraction
    rw [div_lt_one (by norm_num)]
    exact_mod_cast (by omega : secondsElapsedN t < 86400)
  have hf0 : 0 ≤ fillWidth t width := by
    unfold fillWidth
    exact Int.floor_nonneg.mpr (mul_nonneg (by exact_mod_cast hbw) hp0)
  have hfb : fillWidth t width ≤ barWidth t width := by
    unfold fillWidth
    have hle : (barWidth t width : ℚ) * dayFraction t ≤ (barWidth t width : ℚ) :=
      mul_le_of_le_one_right (by exact_mod_cast hbw) (le_of_lt hp1)
    have h2 := Int.floor_le_floor hle
    simpa using h2
  refine ⟨hbw, hf0, hfb, ?_⟩
  unfold progressTrack
  rw [String.length_append,
    show ∀ l : List Char, (String.mk l).length = l.length from fun _ => rfl,
    show ∀ l : List Char, (String.mk l).length = l.length from fun _ => rfl,
    List.length_replicate, List.length_replicate]
  omega

/-- Witness for C9 at 13:45:10 in a 40-column cell. -/
theorem progressBar_safety_witness :
    0 ≤ barWidth ⟨2026, 1, 1, 4, 13, 45, 10⟩ 40 ∧
    0 ≤ fillWidth ⟨2026, 1, 1, 4, 13, 45, 10⟩ 40 ∧
    fillWidth ⟨2026, 1, 1, 4, 13, 45, 10⟩ 40 ≤
      barWidth ⟨2026, 1, 1, 4, 13, 45, 10⟩ 40 ∧
    (progressTrack ⟨2026, 1, 1, 4, 13, 45, 10⟩ 40).length =
      (barWidth ⟨2026, 1, 1, 4, 13, 45, 10⟩ 40).toNat :=
  progressBar_safety ⟨2026, 1, 1, 4, 13, 45, 10⟩ 40 (by decide) (by decide)
    (by decide)

/-- runewidth.StringWidth at the level of one character, modelled from
the library's documented behaviour on the characters this program
prints: control characters (below 0x20, in particular the escape byte)
have width 0, the emoji indicators have width 2, every other character
(ASCII, box-drawing blocks) has width 1. -/
def runeWidth (c : Char) : Nat :=
  if c.toNat < 32 then 0
  else if 0x1F300 ≤ c.toNat ∨ c.toNat = 0x26AB then 2
  else 1

/-- runewidth.StringWidth: the display width of a string. -/
def displayWidth (s : String) : Nat :=
  (s.data.map runeWidth).sum

/-- strings.Repeat of a space. -/
def spaces (n : Nat) : String :=
  String.mk (List.replicate n ' ')

/-- CenterTime: pad := (width - StringWidth(s)) / 2; prepend pad spaces
when pad is positive, otherwise return the string unchanged. -/
def CenterTime (s : String) (width : Int) : String :=
  let pad : Int := (width - displayWidth s) / 2
  if pad > 0 then spaces pad.toNat ++ s else s

/-- The single left-to-right pass of strings.NewReplacer over the five
style markers CenterDate removes before measuring. -/
def stripEscapes : List Char → List Char
  | [] => []
  | '\x1b' :: '[' :: '1' :: 'm' :: rest => stripEscapes rest
  | '\x1b' :: '[' :: '0' :: 'm' :: rest => stripEscapes rest
  | '\x1b' :: '[' :: '3' :: '3' :: 'm' :: rest => stripEscapes rest
  | '\x1b' :: '[' :: '3' :: '2' :: 'm' :: rest => stripEscapes rest
  | '\x1b' :: '[' :: '3' :: '1' :: 'm' :: rest => stripEscapes rest
  | c :: rest => c :: stripEscapes rest

/-- CenterDate's clean string: the input with the known style markers
removed. -/
def stripEscapesStr (s : String) : String :=
  String.mk (stripEscapes s.data)

/-- CenterDate: like CenterTime, but the width is measured on the
stripped string while the padding is prepended to the original string. -/
def CenterDate (s : String) (width : Int) : String :=
  let pad : Int := (width - displayWidth (stripEscapesStr s)) / 2
  if pad > 0 then spaces pad.toNat ++ s else s

/-- The digits map: the 5-row block-character bitmap for each supported
character. -/
def digits : Char → Option (List String)
  | '0' => some ["█████", "█   █", "█   █", "█   █", "█████"]
  | '1' => some ["  █  ", " ██  ", "  █  ", "  █  ", "█████"]
  | '2' => some ["█████", "    █", "█████", "█    ", "█████"]
  | '3' => some ["█████", "    █", "█████", "    █", "█████"]
  | '4' => some ["█   █", "█   █", "█████", "    █", "    █"]
  | '5' => some ["█████", "█    ", "█████", "    █", "█████"]
  | '6' => some ["█████", "█    ", "█████", "█   █", "█████"]
  | '7' => some ["█████", "    █", "    █", "    █", "    █"]
  | '8' => some ["█████", "█   █", "█████", "█   █", "█████"]
  | '9' => some ["█████", "█   █", "█████", "    █", "█████"]
  | ':' => some ["     ", "  █  ", "     ", "  █  ", "     "]
  | 'A' => some ["     ", " ██  ", "█  █ ", "████ ", "█  █ "]
  | 'M' => some ["     ", "█ █ █", "█████", "█ █ █", "█   █"]
  | 'P' => some ["     ", "████ ", "█  █ ", "████ ", "█    "]
  | ' ' => some ["     ", "     ", "     ", "     ", "     "]
  | _ => none

/-- PrintTimeASCII: build 5 art lines by appending, for each character
that has a glyph, its 5 rows plus a trailing separator space; characters
without a glyph are skipped. -/
def PrintTimeASCII (t : String) : List String :=
  t.data.foldl
    (fun lines c =>
      match digits c with
      | none => lines
      | some art => List.zipWith (fun acc a => acc ++ a ++ " ") lines art)
    ["", "", "", "", ""]

/-- UpdateViewTime (canonical variant), as the pure content it writes
into a cleared view of the given size: the flowed lines, and the
progress bar that the code pins to the last row with SetCursor.  Below
the art threshold (height < 8) it writes a blank line, the centered
03:04:05 PM time, the centered short date, and the bar; otherwise a
blank line, the five centered art rows of the (possibly blinking) 03:04
PM string, the centered bold full date, the centered business-hours
indicator, and the bar. -/
def UpdateViewTime (t : GoTime) (width height : Int) : List String × String :=
  if height < 8 then
    (["", CenterDate (formatTimeHMS t) width, CenterDate (formatDateShort t) width],
     getDayProgressBar t width)
  else
    ([""] ++ (PrintTimeASCII (artTimeString t)).map (fun l => CenterTime l width)
      ++ [CenterDate (boldDateString t) width,
          CenterDate (getBusinessHoursIndicator t) width],
     getDayProgressBar t width)

/-- C8: centering pads only on the left with the truncated half of the
width surplus, clamped at zero, and never truncates; CenterTime of "AB"
in width 10 prepends exactly four spaces; CenterDate measures the
stripped string but pads the original, so a bold-styled "AB" in width 10
also gets exactly four spaces and keeps its style markers. -/
theorem center_spec :
    (∀ (s : String) (width : Int),
      CenterTime s width = spaces ((width - displayWidth s) / 2).toNat ++ s) ∧
    (∀ (s : String) (width : Int),
      CenterDate s width =
        spaces ((width - displayWidth (stripEscapesStr s)) / 2).toNat ++ s) ∧
    CenterTime "AB" 10 = "    AB" ∧
    CenterDate "\x1b[1mAB\x1b[0m" 10 = "    \x1b[1mAB\x1b[0m" := by
  refine ⟨?_, ?_, by decide, by decide⟩
  · intro s width
    simp only [CenterTime]
    split
    · rfl
    · rename_i h
      rw [show ((width - displayWidth s) / 2).toNat = 0 by omega]
      exact (String.empty_append s).symm
  · intro s width
    simp only [CenterDate]
    split
    · rfl
    · rename_i h
      rw [show ((width - displayWidth (stripEscapesStr s)) / 2).toNat = 0 by omega]
      exact (String.empty_append s).symm

/-- C6: the cell renderer picks its mode solely from the height with
threshold 8: at height 7 it renders the plain-text content (blank line,
centered seconds-precision time, centered short date, progress bar on
the last row), at height 8 the ASCII-art content. -/
theorem renderMode_spec (t : GoTime) (width : Int) :
    UpdateViewTime t width 7 =
      (["", CenterDate (formatTimeHMS t) width,
        CenterDate (formatDateShort t) width],
       getDayProgressBar t width) ∧
    UpdateViewTime t width 8 =
      ([""] ++ (PrintTimeASCII (artTimeString t)).map (fun l => CenterTime l width)
        ++ [CenterDate (boldDateString t) width,
            CenterDate (getBusinessHoursIndicator t) width],
       getDayProgressBar t width) := by
  constructor
  · rw [UpdateViewTime, if_pos (by norm_num)]
  · rw [UpdateViewTime, if_neg (by norm_num)]

/-- C10: in plain-text mode (height below the art threshold) the
rendered time line always uses the fixed colon-separated 03:04:05 PM
format, for every instant, whatever the parity of its second. -/
theorem plainMode_colons (t : GoTime) (width height : Int) (h : height < 8) :
    (UpdateViewTime t width height).1 =
      ["", CenterDate (pad2 (hour12 t.hour) ++ ":" ++ pad2 t.minute ++ ":"
          ++ pad2 t.second ++ " " ++ ampm t.hour) width,
        CenterDate (formatDateShort t) width] := by
  rw [UpdateViewTime, if_pos h]
  rfl

/-- Witness for C10 at an odd second (07) in a height-7 cell. -/
theorem plainMode_colons_witness :
    (UpdateViewTime ⟨2026, 1, 1, 4, 9, 8, 7⟩ 30 7).1 =
      ["", CenterDate (pad2 (hour12 9) ++ ":" ++ pad2 8 ++ ":"
          ++ pad2 7 ++ " " ++ ampm 9) 30,
        CenterDate (formatDateShort ⟨2026, 1, 1, 4, 9, 8, 7⟩) 30] :=
  plainMode_colons ⟨2026, 1, 1, 4, 9, 8, 7⟩ 30 7 (by decide)

/-- C7: for two instants with the same hour and minute, one with an even
and one with an odd second, the art-mode time strings share the same
prefix (the two hour digits) and the same suffix (minutes and the AM/PM
tag) and differ exactly in the separator: a colon for the even second, a
space for the odd one. -/
theorem blink_spec (t1 t2 : GoTime)
    (hh : t1.hour = t2.hour) (hm : t1.minute = t2.minute)
    (he : t1.second % 2 = 0) (ho : t2.second % 2 = 1) :
    ∃ pre post : String,
      artTimeString t1 = pre ++ ":" ++ post ∧
      artTimeString t2 = pre ++ " " ++ post ∧
      pre = pad2 (hour12 t1.hour) ∧
      post = pad2 t1.minute ++ " " ++ ampm t1.hour := by
  refine ⟨pad2 (hour12 t1.hour), pad2 t1.minute ++ " " ++ ampm t1.hour,
    ?_, ?_, rfl, rfl⟩
  · rw [artTimeString, if_neg (by omega)]
    simp [formatTimeHM, String.append_assoc]
  · rw [artTimeString, if_pos (by omega)]
    simp [formatTimeHMBlink, hh, hm, String.append_assoc]

/-- Witness for C7 at 10:30, seconds 4 and 5. -/
theorem blink_spec_witness :
    ∃ pre post : String,
      artTimeString ⟨2026, 1, 1, 4, 10, 30, 4⟩ = pre ++ ":" ++ post ∧
      artTimeString ⟨2026, 1, 1, 4, 10, 30, 5⟩ = pre ++ " " ++ post ∧
      pre = pad2 (hour12 10) ∧
      post = pad2 30 ++ " " ++ ampm 10 :=
  blink_spec ⟨2026, 1, 1, 4, 10, 30, 4⟩ ⟨2026, 1, 1, 4, 10, 30, 5⟩ rfl rfl
    (by decide) (by decide)

/-- Restatement from the specification text, for comparison with the
code's secondaryRect: the i-th secondary slot (i counted from 1) sits at
grid row (i-1)/3 and column (i-1) mod 3 with x0 = col·colWidth for
colWidth = W/3, x1 = x0+colWidth-1 except x1 = W-1 in the last column,
y0 = (row+1)·rowHeight for rowHeight = gridHeight/3 and
gridHeight = H-3, y1 = y0+rowHeight-1 except y1 = gridHeight-1 in the
last row. -/
def secondaryRectStated (W H i : Nat) : Rect :=
  let gridHeight := H - 3
  let rowHeightS := gridHeight / 3
  let colWidthS := W / 3
  let row := (i - 1) / 3
  let col := (i - 1) % 3
  let x0 : Int := (col * colWidthS : Nat)
  let y0 : Int := ((row + 1) * rowHeightS : Nat)
  ⟨x0, y0,
    if col = 2 then (W : Int) - 1 else x0 + (colWidthS : Int) - 1,
    if row = 1 then (gridHeight : Int) - 1 else y0 + (rowHeightS : Int) - 1⟩

/-- C4: with K secondary slots, K between 0 and 6, the layout produces
exactly K secondary rectangles, and the i-th of them (i counted from 1)
is exactly the rectangle given by the claimed row-major placement
formula. -/
theorem secondaryLayout_spec (W H K : Nat) (_hK : K ≤ 6) :
    (secondaryRects W H K).length = K ∧
    ∀ i : Nat, i < K →
      (secondaryRects W H K)[i]? = some (secondaryRectStated W H (i + 1)) := by
  constructor
  · simp [secondaryRects]
  · intro i hi
    simp only [secondaryRects, List.getElem?_map, List.getElem?_range, hi,
      if_pos, Option.map_some]
    rfl

/-- Witness for C4 at a 30 by 40 terminal with 5 secondary slots,
inspecting slot 4. -/
theorem secondaryLayout_spec_witness :
    (secondaryRects 30 40 5).length = 5 ∧
    (secondaryRects 30 40 5)[3]? = some (secondaryRectStated 30 40 4) :=
  ⟨(secondaryLayout_spec 30 40 5 (by decide)).1,
   (secondaryLayout_spec 30 40 5 (by decide)).2 3 (by decide)⟩

/-- C1 counterexample: at W = 30, H = 40, K = 6 the areas of the focus,
secondary and footer rectangles sum to 1206, not W·H = 1200 — the footer
view spans x = -1 .. W, two columns more than the screen — so the claimed
exact tiling of the W by H grid fails. -/
theorem layout_tiling_counterexample :
    layoutAreaSum 30 40 6 ≠ 30 * 40 := by decide

/-- Area of a rectangle whose side expressions are known nonnegative. -/
lemma area_eval (r : Rect) (w h : Int) (hw : 0 ≤ w) (hh : 0 ≤ h)
    (hx : r.x1 - r.x0 + 1 = w) (hy : r.y1 - r.y0 + 1 = h) :
    r.area = w * h := by
  rw [Rect.area, hx, hy, max_eq_right hw, max_eq_right hh]

/-- C1 amended: for every W ≥ 1, H ≥ 4 and the full complement of K = 6
secondary slots, the focus rectangle, the six secondary rectangles and
the footer rectangle are pairwise disjoint and together cover the whole
W by H screen; but the footer spans columns -1 through W, two columns
beyond the screen, so the areas sum to W·H + 6 rather than W·H — and for
K < 6 the grid cells of the absent slots are simply not produced,
leaving the corresponding region uncovered. -/
theorem layout_tiling (W H : Nat) (hW : 1 ≤ W) (hH : 4 ≤ H) :
    List.Pairwise RectDisjoint (layoutRects W H 6) ∧
    (∀ x y : Int, 0 ≤ x → x < (W : Int) → 0 ≤ y → y < (H : Int) →
      ∃ r ∈ layoutRects W H 6, r.Mem x y) ∧
    layoutAreaSum W H 6 = (W : Int) * (H : Int) + 6 := by
  have hg : gridMaxY H = H - 3 := rfl
  have hrh : rowHeight H = (H - 3) / 3 := rfl
  have hcw : colWidth W = W / 3 := rfl
  have hL : layoutRects W H 6 =
      [focusRect W H, secondaryRect W H 1, secondaryRect W H 2,
        secondaryRect W H 3, secondaryRect W H 4, secondaryRect W H 5,
        secondaryRect W H 6, footerRect W H] := rfl
  refine ⟨?_, ?_, ?_⟩
  · rw [hL]
    refine List.Pairwise.cons ?_ (List.Pairwise.cons ?_ (List.Pairwise.cons ?_
      (List.Pairwise.cons ?_ (List.Pairwise.cons ?_ (List.Pairwise.cons ?_
      (List.Pairwise.cons ?_ (List.Pairwise.cons ?_ List.Pairwise.nil)))))))
    · intro r hr x y hm1 hm2
      simp only [List.mem_cons, List.not_mem_nil, or_false] at hr
      rcases hr with rfl | rfl | rfl | rfl | rfl | rfl | rfl
      all_goals (norm_num [Rect.Mem, focusRect, secondaryRect, footerRect]
        at hm1 hm2; omega)
    · intro r hr x y hm1 hm2
      simp only [List.mem_cons, List.not_mem_nil, or_false] at hr
      rcases hr with rfl | rfl | rfl | rfl | rfl | rfl
      all_goals (norm_num [Rect.Mem, focusRect, secondaryRect, footerRect]
        at hm1 hm2; omega)
    · intro r hr x y hm1 hm2
      simp only [List.mem_cons, List.not_mem_nil, or_false] at hr
      rcases hr with rfl | rfl | rfl | rfl | rfl
      all_goals (norm_num [Rect.Mem, focusRect, secondaryRect, footerRect]
        at hm1 hm2; omega)
    · intro r hr x y hm1 hm2
      simp only [List.mem_cons, List.not_mem_nil, or_false] at hr
      rcases hr with rfl | rfl | rfl | rfl
      all_goals (norm_num [Rect.Mem, focusRect, secondaryRect, footerRect]
        at hm1 hm2; omega)
    · intro r hr x y hm1 hm2
      simp only [List.mem_cons, List.not_mem_nil, or_false] at hr
      rcases hr with rfl | rfl | rfl
      all_goals (norm_num [Rect.Mem, focusRect, secondaryRect, footerRect]
        at hm1 hm2; omega)
    · intro r hr x y hm1 hm2
      simp only [List.mem_cons, List.not_mem_nil, or_false] at hr
      rcases hr with rfl | rfl
      all_goals (norm_num [Rect.Mem, focusRect, secondaryRect, footerRect]
        at hm1 hm2; omega)
    · intro r hr x y hm1 hm2
      simp only [List.mem_cons, List.not_mem_nil, or_false] at hr
      rcases hr with rfl
      all_goals (norm_num [Rect.Mem, focusRect, secondaryRect, footerRect]
        at hm1 hm2; omega)
    · intro r hr
      exact absurd hr (List.not_mem_nil r)
  · intro x y hx0 hxW hy0 hyH
    by_cases h1 : y < (rowHeight H : Int)
    · exact ⟨focusRect W H, by rw [hL]; simp,
        by norm_num [Rect.Mem, focusRect]; omega⟩
    · by_cases h2 : y < 2 * (rowHeight H : Int)
      · by_cases c1 : x < (colWidth W : Int)
        · exact ⟨secondaryRect W H 1, by rw [hL]; simp,
            by norm_num [Rect.Mem, secondaryRect]; omega⟩
        · by_cases c2 : x < 2 * (colWidth W : Int)
          · exact ⟨secondaryRect W H 2, by rw [hL]; simp,
              by norm_num [Rect.Mem, secondaryRect]; omega⟩
          · exact ⟨secondaryRect W H 3, by rw [hL]; simp,
              by norm_num [Rect.Mem, secondaryRect]; omega⟩
      · by_cases h3 : y < (gridMaxY H : Int)
        · by_cases c1 : x < (colWidth W : Int)
          · exact ⟨secondaryRect W H 4, by rw [hL]; simp,
              by norm_num [Rect.Mem, secondaryRect]; omega⟩
          · by_cases c2 : x < 2 * (colWidth W : Int)
            · exact ⟨secondaryRect W H 5, by rw [hL]; simp,
                by norm_num [Rect.Mem, secondaryRect]; omega⟩
            · exact ⟨secondaryRect W H 6, by rw [hL]; simp,
                by norm_num [Rect.Mem, secondaryRect]; omega⟩
        · exact ⟨footerRect W H, by rw [hL]; simp,
            by norm_num [Rect.Mem, footerRect]; omega⟩
  · have e0 : (focusRect W H).area = (W : Int) * (rowHeight H : Int) :=
      area_eval _ _ _ (by omega) (by omega)
        (by norm_num [focusRect]) (by norm_num [focusRect])
    have e1 : (secondaryRect W H 1).area =
        (colWidth W : Int) * (rowHeight H : Int) :=
      area_eval _ _ _ (by omega) (by omega)
        (by norm_num [secondaryRect]) (by norm_num [secondaryRect]; ring)
    have e2 : (secondaryRect W H 2).area =
        (colWidth W : Int) * (rowHeight H : Int) :=
      area_eval _ _ _ (by omega) (by omega)
        (by norm_num [secondaryRect]; ring) (by norm_num [secondaryRect]; ring)
    have e3 : (secondaryRect W H 3).area =
        ((W : Int) - 2 * (colWidth W : Int)) * (rowHeight H : Int) :=
      area_eval _ _ _ (by omega) (by omega)
        (by norm_num [secondaryRect]; omega) (by norm_num [secondaryRect]; ring)
    have e4 : (secondaryRect W H 4).area =
        (colWidth W : Int) * ((gridMaxY H : Int) - 2 * (rowHeight H : Int)) :=
      area_eval _ _ _ (by omega) (by omega)
        (by norm_num [secondaryRect]) (by norm_num [secondaryRect]; omega)
    have e5 : (secondaryRect W H 5).area =
        (colWidth W : Int) * ((gridMaxY H : Int) - 2 * (rowHeight H : Int)) :=
      area_eval _ _ _ (by omega) (by omega)
        (by norm_num [secondaryRect]; ring) (by norm_num [secondaryRect]; omega)
    have e6 : (secondaryRect W H 6).area =
        ((W : Int) - 2 * (colWidth W : Int)) *
          ((gridMaxY H : Int) - 2 * (rowHeight H : Int)) :=
      area_eval _ _ _ (by omega) (by omega)
        (by norm_num [secondaryRect]; omega) (by norm_num [secondaryRect]; omega)
    have e7 : (footerRect W H).area = ((W : Int) + 2) * 3 :=
      area_eval _ _ _ (by omega) (by omega)
        (by norm_num [footerRect]; try omega) (by norm_num [footerRect]; try omega)
    have hgI : (gridMaxY H : Int) = (H : Int) - 3 := by omega
    rw [layoutAreaSum, hL]
    simp only [List.map_cons, List.map_nil, List.sum_cons, List.sum_nil]
    rw [e0, e1, e2, e3, e4, e5, e6, e7, hgI]
    ring

/-- Witness for the amended C1 at a 30 by 40 terminal. -/
theorem layout_tiling_witness :
    List.Pairwise RectDisjoint (layoutRects 30 40 6) ∧
    (∀ x y : Int, 0 ≤ x → x < ((30 : Nat) : Int) → 0 ≤ y →
      y < ((40 : Nat) : Int) → ∃ r ∈ layoutRects 30 40 6, r.Mem x y) ∧
    layoutAreaSum 30 40 6 = ((30 : Nat) : Int) * ((40 : Nat) : Int) + 6 :=
  layout_tiling 30 40 (by decide) (by decide)

end Kairos
